import Mathlib

/-!
# Tool Registry — verification of the asynchronous job subsystem

Shallow embedding of `src/tool_registry/api/tools.py` and
`src/tool_registry/api/jobs.py`.

Modelling conventions:
* A Python `dict` is an insertion-ordered association list; `d.get(k)` is
  `dictGet`, `d[k] = v` is `dictSet` (update in place when the key exists,
  append otherwise), and `d[k]` on a missing key raises `KeyError`, rendered
  as `Except.error`.
* `time.time()` values are natural numbers passed in explicitly (`now`).
* Fallible Python code (statements that can raise) is rendered in
  `Except String`; the error string names the Python exception.
* The catalog (`_iter_tool_data`) is passed in as a list of parsed records,
  already in the stable sorted-by-file-path order the generator yields.
-/

namespace ToolRegistry

/-- `d.get(k)` on a Python dict: the value at the first (unique) binding of
`k`, if any. -/
def dictGet {α : Type} (d : List (String × α)) (k : String) : Option α :=
  (d.find? (fun p => p.1 == k)).map (·.2)

/-- `d[k] = v` on a Python dict: replace the (unique) binding of `k` in
place when it is present (keeping its position), append `(k, v)` at the end
otherwise. -/
def dictSet {α : Type} (d : List (String × α)) (k : String) (v : α) :
    List (String × α) :=
  match d with
  | [] => [(k, v)]
  | p :: rest => if p.1 == k then (k, v) :: rest else p :: dictSet rest k v

/-! ## Catalog data model

A parsed tool record (one `.json` file), restricted to the fields the code
reads: `data.get("toolURI")`, `data.get("typeURI", [])`,
`data.get("fileTypes", {}).get("input", [])`, `data.get("toolProperties", {})`.
-/

/-- An entry of a record's `typeURI` list: either a JSON object (the code
reads its `"typeURI"` field) or a plain value (compared directly; only a
string can ever equal the string query). -/
inductive TypeEntry where
  | obj (fields : List (String × String))
  | str (s : String)
deriving DecidableEq, Repr

/-- The value `entry.get("typeURI") if isinstance(entry, dict) else entry`
from `find_tool_sync`. -/
def entryVal : TypeEntry → Option String
  | TypeEntry.obj fields => dictGet fields "typeURI"
  | TypeEntry.str s => some s

/-- An entry of `fileTypes["input"]`: a JSON object with an optional
`"extension"` field (a missing or null field reads back as `none`), or a
non-dict value, whose extension the code takes to be `""`. -/
inductive InputItem where
  | obj (extension : Option String)
  | other
deriving DecidableEq, Repr

/-- A parsed catalog record. `toolURI = none` models an absent (or null)
field; `fileTypesInput` is the `input` list of `fileTypes` (empty when
`fileTypes` is absent or not a dict); `toolProperties` is the
string-to-string properties mapping (empty when absent). -/
structure ToolData where
  toolURI : Option String
  typeURI : List TypeEntry
  fileTypesInput : List InputItem
  toolProperties : List (String × String)
deriving DecidableEq, Repr

/-- Python truthiness of `data.get("toolURI")`: `None` and `""` are falsy. -/
def truthyStr : Option String → Bool
  | none => false
  | some s => s != ""

/-- The dict produced by `ToolSummary.to_dict`:
`{key: value, "toolLabel": props.get("toolLabel", ""),
"toolDescription": props.get("toolDescription", "")}`. -/
structure Summary where
  key : String
  value : String
  toolLabel : String
  toolDescription : String
deriving DecidableEq, Repr

/-- `ToolSummary(key, value, props).to_dict()`. -/
def toolSummaryDict (key value : String) (props : List (String × String)) :
    Summary :=
  { key := key, value := value,
    toolLabel := (dictGet props "toolLabel").getD "",
    toolDescription := (dictGet props "toolDescription").getD "" }

/-! ## Synchronous catalog lookups (tools.py) -/

/-- `find_tool_sync(match_type, match_value)`: scan the catalog in order;
return the summary of the first matching record, `none` for the Python
empty dict `{}` returned when nothing matches (or for an unrecognized
`match_type`, whose loop body matches nothing). -/
def find_tool_sync (catalog : List ToolData)
    (match_type match_value : String) : Option Summary :=
  match catalog with
  | [] => none
  | data :: rest =>
    if match_type == "toolURI" then
      if data.toolURI == some match_value then
        some (toolSummaryDict "toolURI" match_value data.toolProperties)
      else find_tool_sync rest match_type match_value
    else if match_type == "typeURI" then
      if data.typeURI.any (fun e => entryVal e == some match_value) then
        some (toolSummaryDict "typeURI" match_value data.toolProperties)
      else find_tool_sync rest match_type match_value
    else find_tool_sync rest match_type match_value

/-- Whether one record matches a `(match_type, match_value)` query, read off
the two branches of `find_tool_sync`'s loop body. -/
def matchesRecord (match_type match_value : String) (data : ToolData) : Bool :=
  if match_type == "toolURI" then data.toolURI == some match_value
  else if match_type == "typeURI" then
    data.typeURI.any (fun e => entryVal e == some match_value)
  else false

/-- The body of `get_tools`'s loop for one record: append a summary only
when `data.get("toolURI")` is truthy. -/
def getToolsEntry (data : ToolData) : Option Summary :=
  match data.toolURI with
  | some uri =>
    if uri != "" then some (toolSummaryDict "toolURI" uri data.toolProperties)
    else none
  | none => none

/-- `get_tools()`: one summary per record whose `toolURI` is truthy, in
catalog order. -/
def get_tools (catalog : List ToolData) : List Summary :=
  catalog.filterMap getToolsEntry

/-- Python `s.lower()` (ASCII case folding, as `Char.toLower`). -/
def pyLower (s : String) : String := ⟨s.data.map Char.toLower⟩

/-- Python `s.lstrip('.')`: remove every leading `'.'`. -/
def pyLstripDots (s : String) : String := ⟨s.data.dropWhile (· == '.')⟩

/-- `(item.get("extension") or "").lower().lstrip('.')` for a dict item,
`""` for a non-dict item, from `get_tools_by_input_extension`. -/
def itemExt : InputItem → String
  | InputItem.obj ext => pyLstripDots (pyLower (ext.getD ""))
  | InputItem.other => ""

/-- The contribution of one record to `get_tools_by_input_extension`: the
inner loop appends (then breaks) at most one summary, and only when some
declared input's normalized extension equals the normalized query and the
record's `toolURI` is truthy. -/
def extMatchSummary (data : ToolData) (norm : String) : Option Summary :=
  if data.fileTypesInput.any (fun item => itemExt item == norm) then
    match data.toolURI with
    | some uri =>
      if uri != "" then some (toolSummaryDict "toolURI" uri data.toolProperties)
      else none
    | none => none
  else none

/-- `get_tools_by_input_extension(ext)`: normalize the query
(`(ext or "").lower().lstrip('.')`), then collect at most one summary per
matching record, in catalog order. -/
def get_tools_by_input_extension (catalog : List ToolData) (ext : String) :
    List Summary :=
  let norm := pyLstripDots (pyLower ext)
  catalog.filterMap fun data => extMatchSummary data norm

/-! ## Job store (jobs.py / tools.py) -/

/-- A value stored in a job record dict: `"pending"` / `"completed"` status
strings, `time.time()` numbers, the committed result list, or Python
`None`. -/
inductive JobVal where
  | str (s : String)
  | num (t : Nat)
  | list (rs : List Summary)
  | null
deriving DecidableEq, Repr

/-- One job record: the inner dict of `JOB_STORE`. -/
abbrev JobRecord := List (String × JobVal)

/-- The global `JOB_STORE` dict, job id to job record. -/
abbrev Store := List (String × JobRecord)

/-- The record `search_tools_post` inserts:
`{"status": "pending", "result": None, "queued_timestamp": time.time()}`. -/
def newJobRecord (now : Nat) : JobRecord :=
  [("status", JobVal.str "pending"),
   ("result", JobVal.null),
   ("queued_timestamp", JobVal.num now)]

/-- The immediate response of `search_tools_post`. -/
structure SubmitResponse where
  job_id : String
  status : String
deriving DecidableEq, Repr

/-- `search_tools_post(payload)`: insert a fresh pending job and return at
once. `jobId` stands for the generated `uuid4`; the `payload` is only handed
to the background task, not stored. -/
def search_tools_post (now : Nat) (jobId : String) (store : Store)
    (payload : List (String × List String)) : Store × SubmitResponse :=
  (dictSet store jobId (newJobRecord now),
   { job_id := jobId, status := "pending" })

/-- The accumulation loop of `_process_search_job` over `criteria` (a dict
of key to list of identifiers, in insertion order): an unrecognized key
raises `ValueError`; under a recognized key each identifier contributes its
`find_tool_sync` result when truthy (a non-empty dict). -/
def computeResults (catalog : List ToolData) :
    List (String × List String) → Except String (List Summary)
  | [] => Except.ok []
  | (key, vals) :: rest =>
    if key == "toolURI" || key == "typeURI" then
      match computeResults catalog rest with
      | Except.error e => Except.error e
      | Except.ok tail =>
        Except.ok ((vals.filterMap fun v => find_tool_sync catalog key v) ++ tail)
    else Except.error ("Unsupported search criteria: " ++ key)

/-- `_process_search_job(job_id, criteria)`: accumulate `results`, then
commit via `JOB_STORE[job_id]["status"] = "completed"`,
`JOB_STORE[job_id]["completed_timestamp"] = time.time()`,
`JOB_STORE[job_id]["result"] = results`. The first of the three commit
statements raises `KeyError` when `job_id` is absent. -/
def _process_search_job (catalog : List ToolData) (now : Nat) (store : Store)
    (jobId : String) (criteria : List (String × List String)) :
    Except String Store :=
  match computeResults catalog criteria with
  | Except.error e => Except.error e
  | Except.ok results =>
    match dictGet store jobId with
    | none => Except.error ("KeyError: " ++ jobId)
    | some rec =>
      Except.ok (dictSet store jobId
        (dictSet (dictSet (dictSet rec "status" (JobVal.str "completed"))
          "completed_timestamp" (JobVal.num now))
          "result" (JobVal.list results)))

/-- The effect of one background-task run of `_process_search_job` on
`JOB_STORE`: an exception propagates out of the task, leaving the store as
it was. -/
def runProcess (catalog : List ToolData) (now : Nat) (store : Store)
    (jobId : String) (criteria : List (String × List String)) : Store :=
  match _process_search_job catalog now store jobId criteria with
  | Except.ok store1 => store1
  | Except.error _ => store

/-- `get_job_status(job_id)`: 404 when the id is unknown (or the record is
the falsy empty dict), the raw record otherwise. -/
def get_job_status (store : Store) (jobId : String) :
    Except String JobRecord :=
  match dictGet store jobId with
  | some job => if job.isEmpty then Except.error "404: Job not found" else Except.ok job
  | none => Except.error "404: Job not found"

/-! ## Housekeeping (jobs.py) -/

/-- The first loop of `clean_db`: build `to_delete` from every job with
`now - job["timestamp"] > 3600`. Reading `job["timestamp"]` raises
`KeyError` when the key is absent, and the subtraction raises `TypeError`
when its value is not a number. -/
def collectExpired (now : Nat) : Store → Except String (List String)
  | [] => Except.ok []
  | (jobId, job) :: rest =>
    match dictGet job "timestamp" with
    | some (JobVal.num t) =>
      match collectExpired now rest with
      | Except.error e => Except.error e
      | Except.ok tail =>
        Except.ok (if t + 3600 < now then jobId :: tail else tail)
    | some _ => Except.error "TypeError: unsupported operand type(s) for -"
    | none => Except.error "KeyError: timestamp"

/-- `clean_db()`: compute `now` once (here a parameter, fixed for the whole
sweep), collect the expired ids, then delete them. -/
def clean_db (now : Nat) (store : Store) : Except String Store :=
  match collectExpired now store with
  | Except.error e => Except.error e
  | Except.ok toDelete =>
    Except.ok (store.filter (fun p => !(toDelete.contains p.1)))

/-- The effect of one wake of `periodic_housekeeping` on `JOB_STORE` when
its exception dies with the task: an erroring sweep leaves the store as it
was. Used only to close the reachable-state relation. -/
def runClean (now : Nat) (store : Store) : Store :=
  match clean_db now store with
  | Except.ok store1 => store1
  | Except.error _ => store

/-- `periodic_housekeeping()` run over a finite schedule of wake times
(`await asyncio.sleep(60)` makes consecutive wakes 60 time-units apart):
`while True: await clean_db(); await asyncio.sleep(60)`. The body has no
exception handler, so an error from a sweep propagates and no later wake in
the schedule runs. -/
def housekeepingTicks : List Nat → Store → Except String Store
  | [], store => Except.ok store
  | now :: rest, store =>
    match clean_db now store with
    | Except.error e => Except.error e
    | Except.ok store1 => housekeepingTicks rest store1

/-- The wake schedule of `periodic_housekeeping`: one wake every 60
time-units from the first. -/
def wakeTimes (t0 : Nat) (count : Nat) : List Nat :=
  (List.range count).map fun k => t0 + 60 * k

/-! ## Reachable job-store states

The operations that touch `JOB_STORE` are job creation
(`search_tools_post`), the background processing task
(`_process_search_job`) and the housekeeping sweep (`clean_db`); reads
(`get_job_status`) do not change it. Cooperative scheduling interleaves
whole operations, so the observable stores are exactly those reachable from
the empty initial store by these three steps. -/
inductive Reachable : Store → Prop where
  | empty : Reachable []
  | create (now : Nat) (jobId : String) (payload : List (String × List String))
      {s : Store} (h : Reachable s) :
      Reachable (search_tools_post now jobId s payload).1
  | process (catalog : List ToolData) (now : Nat) (jobId : String)
      (criteria : List (String × List String)) {s : Store} (h : Reachable s) :
      Reachable (runProcess catalog now s jobId criteria)
  | clean (now : Nat) {s : Store} (h : Reachable s) :
      Reachable (runClean now s)

/-- The job-record invariant of claim C7: status is `"completed"` exactly
when a result list has been attached. -/
def JobInv (rec : JobRecord) : Prop :=
  dictGet rec "status" = some (JobVal.str "completed") ↔
    ∃ rs, dictGet rec "result" = some (JobVal.list rs)

/-- Every record of the store satisfies `JobInv`. -/
def StoreInv (s : Store) : Prop :=
  ∀ id rec, (id, rec) ∈ s → JobInv rec



/-! ## Concrete sample data and spec-side definitions -/

/-- A store holding one job created by `search_tools_post` at time 0. -/
def sampleStore : Store :=
  (search_tools_post 0 "job-1" [] [("toolURI", ["edc:tool.X"])]).1

/-- A catalog record with identifier `edc:tool.X`, declared type
`edc:fil.T`, declared input extension `csv` and two descriptive
properties. -/
def sampleCsvRecord : ToolData :=
  { toolURI := some "edc:tool.X",
    typeURI := [TypeEntry.obj [("typeURI", "edc:fil.T")]],
    fileTypesInput := [InputItem.obj (some "csv")],
    toolProperties := [("toolLabel", "A"), ("toolDescription", "B")] }

/-- The summary `sampleCsvRecord` yields for a `toolURI` match. -/
def sampleCsvSummary : Summary :=
  { key := "toolURI", value := "edc:tool.X", toolLabel := "A",
    toolDescription := "B" }

/-- A catalog record with no `toolURI` but a matching `csv` input. -/
def sampleNoUriRecord : ToolData :=
  { toolURI := none, typeURI := [],
    fileTypesInput := [InputItem.obj (some "csv")], toolProperties := [] }

/-- The extension normalization as claim C8 words it (not as the code does
it): lower-case, then strip at most ONE leading separator character. Kept
only to compare against the code's `lstrip`-all behaviour. -/
def claimNormOneDot (s : String) : String :=
  let l := pyLower s
  if l.data.head? = some '.' then ⟨l.data.tail⟩ else l

/-! ## Dictionary lemmas -/

theorem dictGet_nil {α : Type} (k : String) :
    dictGet ([] : List (String × α)) k = none := rfl

theorem dictGet_cons {α : Type} (p : String × α) (d : List (String × α))
    (k : String) :
    dictGet (p :: d) k = if p.1 = k then some p.2 else dictGet d k := by
  by_cases h : p.1 = k
  · simp [dictGet, List.find?, h]
  · have hb : (p.1 == k) = false := by simp [h]
    simp [dictGet, List.find?, hb, h]

theorem dictGet_dictSet {α : Type} (d : List (String × α)) (k k' : String)
    (v : α) :
    dictGet (dictSet d k v) k' = if k' = k then some v else dictGet d k' := by
  induction d with
  | nil =>
    by_cases h : k' = k
    · simp [dictSet, dictGet_cons, h]
    · simp [dictSet, dictGet_cons, dictGet_nil, h, Ne.symm h]
  | cons p rest ih =>
    by_cases h : k' = k
    · subst h
      by_cases hp : p.1 = k'
      · simp [dictSet, hp, dictGet_cons]
      · simp [dictSet, hp, dictGet_cons, ih]
    · by_cases hp : p.1 = k
      · have hpk' : ¬ p.1 = k' := fun hh => h (hh ▸ hp)
        simp [dictSet, hp, dictGet_cons, h, Ne.symm h, hpk']
      · simp [dictSet, hp, dictGet_cons, h, ih]

theorem mem_dictSet {α : Type} {d : List (String × α)} {k : String} {v : α}
    {q : String × α} (h : q ∈ dictSet d k v) : q ∈ d ∨ q = (k, v) := by
  induction d with
  | nil => simp [dictSet] at h; exact Or.inr h
  | cons p rest ih =>
    by_cases hp : p.1 = k
    · simp [dictSet, hp] at h
      rcases h with h | h
      · exact Or.inr h
      · exact Or.inl (List.mem_cons_of_mem _ h)
    · simp [dictSet, hp] at h
      rcases h with h | h
      · exact Or.inl (by simp [h])
      · rcases ih h with h1 | h1
        · exact Or.inl (List.mem_cons_of_mem _ h1)
        · exact Or.inr h1
/-! ## Job-record invariant lemmas -/

theorem jobInv_newJobRecord (now : Nat) : JobInv (newJobRecord now) := by
  have h1 : dictGet (newJobRecord now) "status" =
      some (JobVal.str "pending") := rfl
  have h2 : dictGet (newJobRecord now) "result" = some JobVal.null := rfl
  unfold JobInv
  rw [h1, h2]
  constructor
  · intro h; simp at h
  · rintro ⟨rs, h⟩; simp at h

theorem jobInv_commit (rec : JobRecord) (now : Nat) (results : List Summary) :
    JobInv (dictSet (dictSet (dictSet rec "status" (JobVal.str "completed"))
      "completed_timestamp" (JobVal.num now)) "result"
      (JobVal.list results)) := by
  unfold JobInv
  rw [dictGet_dictSet, if_neg (by decide), dictGet_dictSet,
    if_neg (by decide), dictGet_dictSet, if_pos rfl, dictGet_dictSet,
    if_pos rfl]
  constructor
  · intro _; exact ⟨results, rfl⟩
  · intro _; rfl

theorem storeInv_create (now : Nat) (jobId : String)
    (payload : List (String × List String)) {s : Store} (ih : StoreInv s) :
    StoreInv (search_tools_post now jobId s payload).1 := by
  intro id rec hmem
  rcases mem_dictSet hmem with hm | hm
  · exact ih _ _ hm
  · simp [Prod.mk.injEq] at hm
    rw [hm.2]
    exact jobInv_newJobRecord now

theorem storeInv_process (catalog : List ToolData) (now : Nat)
    (jobId : String) (criteria : List (String × List String)) {s : Store}
    (ih : StoreInv s) : StoreInv (runProcess catalog now s jobId criteria) := by
  unfold runProcess _process_search_job
  cases hcr : computeResults catalog criteria with
  | error e => simpa using ih
  | ok results =>
    cases hg : dictGet s jobId with
    | none => simpa using ih
    | some rec =>
      intro id r hmem
      rcases mem_dictSet hmem with hm | hm
      · exact ih _ _ hm
      · simp [Prod.mk.injEq] at hm
        rw [hm.2]
        exact jobInv_commit rec now results

theorem storeInv_clean (now : Nat) {s : Store} (ih : StoreInv s) :
    StoreInv (runClean now s) := by
  unfold runClean clean_db
  cases hce : collectExpired now s with
  | error e => simpa using ih
  | ok toDelete =>
    intro id rec hmem
    exact ih _ _ (List.mem_filter.mp hmem).1

/-! ## Processing lemmas -/

theorem computeResults_error_of_bad_key (catalog : List ToolData) :
    ∀ criteria : List (String × List String),
    (∃ k, k ∈ criteria.map Prod.fst ∧ k ≠ "toolURI" ∧ k ≠ "typeURI") →
    ∃ e, computeResults catalog criteria = Except.error e := by
  intro criteria
  induction criteria with
  | nil => rintro ⟨k, hk, -, -⟩; simp at hk
  | cons kv rest ih =>
    obtain ⟨key, vals⟩ := kv
    rintro ⟨k, hk, h1, h2⟩
    simp at hk
    by_cases hrec : (key == "toolURI" || key == "typeURI") = true
    · have hk' : k ∈ rest.map Prod.fst := by
        rcases hk with hk | hk
        · exfalso
          simp at hrec
          subst hk
          rcases hrec with h | h
          · exact h1 h
          · exact h2 h
        · simpa using hk
      rcases ih ⟨k, hk', h1, h2⟩ with ⟨e, he⟩
      exact ⟨e, by simp [computeResults, hrec, he]⟩
    · exact ⟨"Unsupported search criteria: " ++ key,
        by simp [computeResults, hrec]⟩

theorem computeResults_ok (catalog : List ToolData) :
    ∀ criteria : List (String × List String),
    (∀ kv, kv ∈ criteria → kv.1 = "toolURI" ∨ kv.1 = "typeURI") →
    computeResults catalog criteria =
      Except.ok (criteria.flatMap fun kv =>
        kv.2.filterMap fun v => find_tool_sync catalog kv.1 v) := by
  intro criteria
  induction criteria with
  | nil => intro _; rfl
  | cons kv rest ih =>
    intro h
    obtain ⟨key, vals⟩ := kv
    have hhead := h (key, vals) (List.mem_cons_self _ _)
    have hrec : (key == "toolURI" || key == "typeURI") = true := by
      rcases hhead with h1 | h1 <;> simp at h1 <;> simp [h1]
    have htail := ih (fun kv hm => h kv (List.mem_cons_of_mem _ hm))
    simp [computeResults, hrec, htail, List.flatMap_cons]

theorem find_tool_sync_eq_first (catalog : List ToolData) (t v : String) :
    find_tool_sync catalog t v =
      (catalog.find? (matchesRecord t v)).map
        (fun d => toolSummaryDict t v d.toolProperties) := by
  induction catalog with
  | nil => rfl
  | cons data rest ih =>
    by_cases ht : t = "toolURI"
    · subst ht
      by_cases hm : (data.toolURI == some v) = true
      · simp [find_tool_sync, matchesRecord, hm]
      · simp [find_tool_sync, matchesRecord, hm, ih]
    · by_cases ht2 : t = "typeURI"
      · subst ht2
        by_cases hm : (data.typeURI.any fun e => entryVal e == some v) = true
        · simp [find_tool_sync, matchesRecord, hm]
        · simp [find_tool_sync, matchesRecord, hm, ih]
      · simp [find_tool_sync, matchesRecord, ht, ht2, ih]

theorem flatMap_matches_nil (catalog : List ToolData) :
    ∀ criteria : List (String × List String),
    (∀ kv, kv ∈ criteria → ∀ v, v ∈ kv.2 →
      find_tool_sync catalog kv.1 v = none) →
    (criteria.flatMap fun kv =>
      kv.2.filterMap fun v => find_tool_sync catalog kv.1 v) = [] := by
  intro criteria
  induction criteria with
  | nil => intro _; rfl
  | cons kv rest ih =>
    intro h
    rw [List.flatMap_cons]
    have h1 : (kv.2.filterMap fun v => find_tool_sync catalog kv.1 v) = [] := by
      rw [List.filterMap_eq_nil_iff]
      intro v hv
      exact h kv (List.mem_cons_self _ _) v hv
    rw [h1, List.nil_append]
    exact ih (fun kv2 hm v hv => h kv2 (List.mem_cons_of_mem _ hm) v hv)

/-! ## Catalog-lookup lemmas -/

theorem extMatchSummary_none (r : ToolData) (norm : String)
    (h : truthyStr r.toolURI = false) : extMatchSummary r norm = none := by
  unfold extMatchSummary
  cases hu : r.toolURI with
  | none => simp
  | some uri =>
    simp [truthyStr, hu] at h
    simp [h]

theorem getToolsEntry_none (r : ToolData) (h : truthyStr r.toolURI = false) :
    getToolsEntry r = none := by
  unfold getToolsEntry
  cases hu : r.toolURI with
  | none => simp
  | some uri =>
    simp [truthyStr, hu] at h
    simp [h]

theorem gtbie_def (catalog : List ToolData) (e : String) :
    get_tools_by_input_extension catalog e =
      catalog.filterMap (fun data =>
        extMatchSummary data (pyLstripDots (pyLower e))) := rfl

theorem toLower_dot : Char.toLower '.' = '.' := rfl

theorem dropWhile_replicate_dot (n : Nat) (l : List Char) :
    ((List.replicate n '.') ++ l).dropWhile (· == '.') =
      l.dropWhile (· == '.') := by
  induction n with
  | zero => rfl
  | succ n ih =>
    rw [List.replicate_succ, List.cons_append, List.dropWhile_cons,
      if_pos (by rfl)]
    exact ih

theorem norm_dots (n : Nat) (e : String) :
    pyLstripDots (pyLower (⟨List.replicate n '.'⟩ ++ e)) =
      pyLstripDots (pyLower e) := by
  unfold pyLower pyLstripDots
  have hdata : ((⟨List.replicate n '.'⟩ : String) ++ e).data =
      List.replicate n '.' ++ e.data := by
    simp [String.data_append]
  rw [hdata, List.map_append, List.map_replicate, toLower_dot,
    dropWhile_replicate_dot]

/-! ## Claims -/

/-- Claim C1, counterexample: committing completion for a job id absent from
`JOB_STORE` is NOT a silent no-op — the first commit statement
`JOB_STORE[job_id]["status"] = "completed"` raises `KeyError` (here on the
empty store, with a well-formed criteria and an empty catalog). -/
theorem c1_counterexample :
    _process_search_job [] 0 [] "job-x" [("toolURI", ["edc:tool.X"])] =
      Except.error "KeyError: job-x" := rfl

/-- Claim C1, amended: committing completion for a job id absent from the
Job Store raises an exception (it does not complete silently), and the
store is nevertheless left unchanged — the result is discarded because the
exception aborts the commit before any mutation. -/
theorem c1_theorem (catalog : List ToolData) (now : Nat) (store : Store)
    (jobId : String) (criteria : List (String × List String))
    (h : dictGet store jobId = none) :
    (∃ e, _process_search_job catalog now store jobId criteria =
      Except.error e) ∧
    runProcess catalog now store jobId criteria = store := by
  unfold runProcess _process_search_job
  cases hcr : computeResults catalog criteria with
  | error e => exact ⟨⟨e, rfl⟩, rfl⟩
  | ok results => rw [h]; exact ⟨⟨_, rfl⟩, rfl⟩

/-- Claim C1, witness: the amended statement at the empty store. -/
theorem c1_witness :
    (∃ e, _process_search_job [] 0 [] "job-x" [("toolURI", ["x"])] =
      Except.error e) ∧
    runProcess [] 0 [] "job-x" [("toolURI", ["x"])] = [] :=
  c1_theorem [] 0 [] "job-x" [("toolURI", ["x"])] rfl

/-- Claim C2, counterexample: the housekeeping loop does NOT absorb a sweep
error. On a store holding one freshly created job, the first sweep raises
(`clean_db` reads the absent `"timestamp"` key) and the error propagates out
of the schedule — the second wake of the 60-unit schedule never runs,
whereas the claim predicts the loop runs again on the next wake. -/
theorem c2_counterexample :
    housekeepingTicks (wakeTimes 7200 2) sampleStore =
      Except.error "KeyError: timestamp" := by rfl

/-- Claim C2, amended: `periodic_housekeeping` wakes every 60 time-units
only while sweeps succeed; it has no error handling, so once a sweep raises,
the error propagates and terminates the loop — appending any further wakes
to the schedule changes nothing and none of them runs. -/
theorem c2_theorem (nows : List Nat) :
    ∀ (extra : List Nat) (s : Store) (e : String),
    housekeepingTicks nows s = Except.error e →
    housekeepingTicks (nows ++ extra) s = Except.error e := by
  induction nows with
  | nil => intro extra s e h; simp [housekeepingTicks] at h
  | cons now rest ih =>
    intro extra s e h
    simp only [housekeepingTicks] at h
    simp only [List.cons_append, housekeepingTicks]
    cases hc : clean_db now s with
    | error e1 => rw [hc] at h; exact h
    | ok s1 => rw [hc] at h; exact ih extra s1 e h

/-- Claim C2, witness: the amended statement on the sample store, with one
scheduled wake erroring and one further wake appended. -/
theorem c2_witness :
    housekeepingTicks (wakeTimes 7200 1 ++ [7260]) sampleStore =
      Except.error "KeyError: timestamp" :=
  c2_theorem (wakeTimes 7200 1) [7260] sampleStore "KeyError: timestamp"
    (by rfl)

/-- Claim C3: `clean_db` does compute `now` once per sweep (it is a single
value threaded through the whole sweep here), but it never deletes anything:
it reads `job["timestamp"]`, a key job creation never writes (creation
writes `"queued_timestamp"`), so on a store holding one job 7200 time-units
old — which the claim and spec say must be deleted — the sweep raises
`KeyError` and the job survives. This contradicts `clean_db`'s own
docstring ("Cleans up old jobs from the JOB_STORE"): a code bug. -/
theorem c3_theorem :
    clean_db 7200 sampleStore = Except.error "KeyError: timestamp" ∧
    runClean 7200 sampleStore = sampleStore ∧
    dictGet sampleStore "job-1" = some (newJobRecord 0) :=
  ⟨rfl, rfl, rfl⟩

/-- Claim C4, counterexample: the record `search_tools_post` creates for a
concrete payload has exactly the keys `status`, `result` and
`queued_timestamp` — the criteria payload is not stored, and the record read
back by status lookup has no `"criteria"` key. -/
theorem c4_counterexample :
    (newJobRecord 5).map Prod.fst = ["status", "result", "queued_timestamp"] ∧
    dictGet (newJobRecord 5) "criteria" = none ∧
    get_job_status
      ((search_tools_post 5 "job-1" [] [("toolURI", ["edc:tool.X"])]).1)
      "job-1" = Except.ok (newJobRecord 5) :=
  ⟨rfl, rfl, rfl⟩

/-- Claim C4, amended: the job record created in the Job Store contains only
`status = pending`, `result = None` and the creation timestamp; the request
payload (criteria) is not stored in the record and is not readable via
status lookup — it is passed only to the background processing task. -/
theorem c4_theorem (now : Nat) (jobId : String) (store : Store)
    (payload : List (String × List String)) :
    (search_tools_post now jobId store payload).1 =
      dictSet store jobId (newJobRecord now) ∧
    get_job_status (search_tools_post now jobId store payload).1 jobId =
      Except.ok (newJobRecord now) ∧
    dictGet (newJobRecord now) "criteria" = none := by
  refine ⟨rfl, ?_, rfl⟩
  unfold get_job_status search_tools_post
  rw [dictGet_dictSet, if_pos rfl]
  simp [newJobRecord]

/-- Claim C5: a criteria mapping containing any key outside
`{toolURI, typeURI}` makes `_process_search_job` raise `ValueError` before
its commit phase, so no result (not even a partial one) is committed and the
store — hence the job's `pending` status — is unchanged; nothing else ever
marks a job completed. -/
theorem c5_theorem (catalog : List ToolData) (now : Nat) (store : Store)
    (jobId : String) (criteria : List (String × List String))
    (h : ∃ k, k ∈ criteria.map Prod.fst ∧ k ≠ "toolURI" ∧ k ≠ "typeURI") :
    (∃ e, _process_search_job catalog now store jobId criteria =
      Except.error e) ∧
    runProcess catalog now store jobId criteria = store := by
  rcases computeResults_error_of_bad_key catalog criteria h with ⟨e, he⟩
  constructor
  · exact ⟨e, by unfold _process_search_job; rw [he]⟩
  · unfold runProcess _process_search_job; rw [he]

/-- Claim C5, witness: submitting `{"bogusKey": ["x"]}` against the sample
store leaves the store (and the job's pending status) unchanged. -/
theorem c5_witness :
    (∃ e, _process_search_job [] 0 sampleStore "job-1" [("bogusKey", ["x"])] =
      Except.error e) ∧
    runProcess [] 0 sampleStore "job-1" [("bogusKey", ["x"])] = sampleStore :=
  c5_theorem [] 0 sampleStore "job-1" [("bogusKey", ["x"])]
    ⟨"bogusKey", by decide, by decide, by decide⟩

/-- Claim C6: for criteria with only recognized keys, the accumulated result
is exactly the concatenation, in the outer key order then inner value order
of `criteria`, of the per-value lookups — each of which contributes at most
one summary, namely the one of the FIRST record of the (sorted) catalog
matching that kind/value; values with no matching record contribute
nothing. -/
theorem c6_theorem (catalog : List ToolData)
    (criteria : List (String × List String))
    (h : ∀ kv, kv ∈ criteria → kv.1 = "toolURI" ∨ kv.1 = "typeURI") :
    computeResults catalog criteria =
      Except.ok (criteria.flatMap fun kv =>
        kv.2.filterMap fun v => find_tool_sync catalog kv.1 v) ∧
    ∀ t v, find_tool_sync catalog t v =
      (catalog.find? (matchesRecord t v)).map
        (fun d => toolSummaryDict t v d.toolProperties) :=
  ⟨computeResults_ok catalog criteria h,
   fun t v => find_tool_sync_eq_first catalog t v⟩

/-- Claim C6, witness: the statement at a concrete catalog and a two-key
criteria mapping. -/
theorem c6_witness :
    computeResults [sampleCsvRecord]
        [("toolURI", ["edc:tool.X"]), ("typeURI", ["edc:fil.T"])] =
      Except.ok ([("toolURI", ["edc:tool.X"]),
          ("typeURI", ["edc:fil.T"])].flatMap
        fun kv => kv.2.filterMap fun v =>
          find_tool_sync [sampleCsvRecord] kv.1 v) ∧
    ∀ t v, find_tool_sync [sampleCsvRecord] t v =
      (List.find? (matchesRecord t v) [sampleCsvRecord]).map
        (fun d => toolSummaryDict t v d.toolProperties) :=
  c6_theorem [sampleCsvRecord]
    [("toolURI", ["edc:tool.X"]), ("typeURI", ["edc:fil.T"])] (by decide)

/-- Claim C7: in every job-store state reachable by the system's operations
(creation, background processing, housekeeping), a job's result is attached
(a committed list) exactly when its status is `"completed"`; moreover a job
is created `pending` with `result = None`, and the one operation that
attaches the result is the same commit that sets `"completed"` (see
`jobInv_commit`). -/
theorem c7_theorem :
    (∀ s, Reachable s → StoreInv s) ∧
    (∀ now, dictGet (newJobRecord now) "status" =
        some (JobVal.str "pending") ∧
      dictGet (newJobRecord now) "result" = some JobVal.null) := by
  constructor
  · intro s h
    induction h with
    | empty => intro id rec hmem; simp at hmem
    | create now jobId payload h ih => exact storeInv_create now jobId _ ih
    | process catalog now jobId criteria h ih =>
      exact storeInv_process catalog now jobId _ ih
    | clean now h ih => exact storeInv_clean now ih
  · intro now; exact ⟨rfl, rfl⟩

/-- Claim C7, witness: the invariant at the concrete reachable store holding
one freshly created job. -/
theorem c7_witness : StoreInv sampleStore :=
  c7_theorem.1 _
    (Reachable.create 0 "job-1" [("toolURI", ["edc:tool.X"])] Reachable.empty)

/-- Claim C8, counterexample: the code normalizes with `lstrip('.')`, which
strips ALL leading dots, not one. With a record declaring extension `csv`,
the query `"..CSV"` matches in the code, while under the claim's
strip-one-dot normalization the two sides normalize differently (`".csv"`
vs `"csv"`), i.e. the claim predicts no match. -/
theorem c8_counterexample :
    get_tools_by_input_extension [sampleCsvRecord] "..CSV" =
      [sampleCsvSummary] ∧
    claimNormOneDot "..CSV" ≠ claimNormOneDot "csv" :=
  ⟨rfl, by decide⟩

/-- Claim C8, amended: matching by input extension lower-cases both sides
and strips ALL leading separator characters (dots), so prepending any run of
dots to the query never changes the result; `".CSV"` (and `"..CSV"`) match a
record declaring `csv`; and each record contributes at most one summary (the
inner scan stops at the first matching declared input). -/
theorem c8_theorem :
    (∀ (catalog : List ToolData) (ext : String) (n : Nat),
      get_tools_by_input_extension catalog (⟨List.replicate n '.'⟩ ++ ext) =
        get_tools_by_input_extension catalog ext) ∧
    get_tools_by_input_extension [sampleCsvRecord] ".CSV" =
      [sampleCsvSummary] ∧
    get_tools_by_input_extension [sampleCsvRecord] "..CSV" =
      [sampleCsvSummary] ∧
    (∀ (catalog : List ToolData) (ext : String),
      (get_tools_by_input_extension catalog ext).length ≤ catalog.length) := by
  refine ⟨?_, rfl, rfl, ?_⟩
  · intro catalog ext n
    rw [gtbie_def, gtbie_def, norm_dots]
  · intro catalog ext
    rw [gtbie_def]
    exact List.length_filterMap_le _ _

/-- Claim C9: for criteria with only recognized keys none of whose values
matches any catalog record, processing still commits: the job's status
becomes `"completed"` and the committed result is the empty list — not an
error. -/
theorem c9_theorem (catalog : List ToolData) (now : Nat) (store : Store)
    (jobId : String) (criteria : List (String × List String))
    (rec : JobRecord)
    (hkeys : ∀ kv, kv ∈ criteria → kv.1 = "toolURI" ∨ kv.1 = "typeURI")
    (hnone : ∀ kv, kv ∈ criteria → ∀ v, v ∈ kv.2 →
      find_tool_sync catalog kv.1 v = none)
    (hjob : dictGet store jobId = some rec) :
    ∃ rec', _process_search_job catalog now store jobId criteria =
        Except.ok (dictSet store jobId rec') ∧
      dictGet rec' "status" = some (JobVal.str "completed") ∧
      dictGet rec' "result" = some (JobVal.list []) := by
  have hok := computeResults_ok catalog criteria hkeys
  have hflat := flatMap_matches_nil catalog criteria hnone
  rw [hflat] at hok
  refine ⟨dictSet (dictSet (dictSet rec "status" (JobVal.str "completed"))
    "completed_timestamp" (JobVal.num now)) "result" (JobVal.list []),
    ?_, ?_, ?_⟩
  · unfold _process_search_job
    rw [hok, hjob]
  · rw [dictGet_dictSet, if_neg (by decide), dictGet_dictSet,
      if_neg (by decide), dictGet_dictSet, if_pos rfl]
  · rw [dictGet_dictSet, if_pos rfl]

/-- Claim C9, witness: submitting `{"toolURI": ["edc:tool.MISSING"]}`
against a catalog with no such identifier completes the sample job with an
empty result. -/
theorem c9_witness :
    ∃ rec', _process_search_job [sampleCsvRecord] 9 sampleStore "job-1"
        [("toolURI", ["edc:tool.MISSING"])] =
        Except.ok (dictSet sampleStore "job-1" rec') ∧
      dictGet rec' "status" = some (JobVal.str "completed") ∧
      dictGet rec' "result" = some (JobVal.list []) :=
  c9_theorem [sampleCsvRecord] 9 sampleStore "job-1"
    [("toolURI", ["edc:tool.MISSING"])] (newJobRecord 0)
    (by decide) (by decide) rfl

/-- Claim C10: every summary produced by `get_tools` and by
`get_tools_by_input_extension` carries a non-empty `toolURI` value, and a
record whose `toolURI` is absent or empty is silently omitted from both
results — even when its declared input extension matches the query. -/
theorem c10_theorem :
    (∀ (catalog : List ToolData) (s : Summary),
      s ∈ get_tools catalog → s.value ≠ "") ∧
    (∀ (catalog : List ToolData) (ext : String) (s : Summary),
      s ∈ get_tools_by_input_extension catalog ext → s.value ≠ "") ∧
    (∀ (pre post : List ToolData) (r : ToolData) (ext : String),
      truthyStr r.toolURI = false →
      get_tools (pre ++ r :: post) = get_tools (pre ++ post) ∧
      get_tools_by_input_extension (pre ++ r :: post) ext =
        get_tools_by_input_extension (pre ++ post) ext) := by
  refine ⟨?_, ?_, ?_⟩
  · intro catalog s hs
    rcases List.mem_filterMap.mp hs with ⟨d, _, hf⟩
    unfold getToolsEntry at hf
    cases hu : d.toolURI with
    | none => rw [hu] at hf; simp at hf
    | some uri =>
      rw [hu] at hf
      by_cases huri : (uri != "") = true
      · simp only [huri, if_true] at hf
        have hv := Option.some.inj hf
        rw [← hv]
        simpa [toolSummaryDict] using huri
      · simp [huri] at hf
  · intro catalog ext s hs
    rw [gtbie_def] at hs
    rcases List.mem_filterMap.mp hs with ⟨d, _, hf⟩
    unfold extMatchSummary at hf
    by_cases hany : (d.fileTypesInput.any fun item =>
        itemExt item == pyLstripDots (pyLower ext)) = true
    · rw [if_pos hany] at hf
      cases hu : d.toolURI with
      | none => rw [hu] at hf; simp at hf
      | some uri =>
        rw [hu] at hf
        by_cases huri : (uri != "") = true
        · simp only [huri, if_true] at hf
          have hv := Option.some.inj hf
          rw [← hv]
          simpa [toolSummaryDict] using huri
        · simp [huri] at hf
    · rw [if_neg hany] at hf; simp at hf
  · intro pre post r ext h
    constructor
    · unfold get_tools
      rw [List.filterMap_append, List.filterMap_append, List.filterMap_cons,
        getToolsEntry_none r h]
    · rw [gtbie_def, gtbie_def, List.filterMap_append, List.filterMap_append,
        List.filterMap_cons]
      simp only [extMatchSummary_none r _ h]

/-- Claim C10, witness: a record declaring a matching `csv` input but no
`toolURI` contributes nothing to either listing. -/
theorem c10_witness :
    get_tools [sampleNoUriRecord] = get_tools [] ∧
    get_tools_by_input_extension [sampleNoUriRecord] "csv" =
      get_tools_by_input_extension [] "csv" :=
  c10_theorem.2.2 [] [] sampleNoUriRecord "csv" rfl

end ToolRegistry
